import Mathlib

/-!
Verification development for the client-side location-history store
(`LocationHistoryDB`, file `duckdb-location-history` of the repository).

The embedding has three layers, mirroring the seams of the source:

* query-text builders: exact Lean transcriptions of the template literals the
  TypeScript code interpolates records into (including their whitespace and
  the escaping `.replace` of single quotes on some of the value positions);
* an executable model of the embedded SQL engine (collaborator A of the
  spec): a genuine single-quoted-string lexer, a parser recognising the
  statement shapes the store emits, and list-of-rows semantics for
  INSERT / SELECT / DELETE with ORDER BY timestamp DESC, LIMIT and ILIKE;
* the facade operations (`saveLocationHistory`, `getLocationHistory`,
  `getLocationById`, `searchLocationHistory`, `deleteLocationHistory`,
  `clearAllHistory`, the IndexedDB backup helpers, `loadFromIndexedDBBackup`
  and the single-flight initialisation state machine), each transcribed from
  the corresponding method of the class.

Everything is structurally recursive or fueled, so concrete runs evaluate
inside the kernel.
-/

namespace LocDB

/-- The single-quote character, written via its code point. -/
def sq : Char := Char.ofNat 39

/-- The `%` wildcard of LIKE patterns. -/
def pc : Char := '%'

/-- The `_` wildcard of LIKE patterns. -/
def uc : Char := '_'

/-- Character-wise embedding of `s.replace(/'/g, "''")`: every single quote
is doubled, all other characters are kept. -/
def escQuoteL : List Char → List Char
  | [] => []
  | c :: cs => if c = sq then sq :: sq :: escQuoteL cs else c :: escQuoteL cs

/-- String form of the quote-doubling used by the insert builders. -/
def escQuote (s : String) : String := String.mk (escQuoteL s.data)

/-- A JavaScript number as far as the store observes it: either an actual
(rational) value or NaN. -/
inductive JsNum
  | num (q : ℚ)
  | nan
deriving DecidableEq

/-- Embedding of the JavaScript expression `Number(x) || d`: NaN and 0 are
falsy and give the default. -/
def jsOr (x : JsNum) (d : ℚ) : ℚ :=
  match x with
  | .nan => d
  | .num q => if q = 0 then d else q

/-- Decimal digit character of `d` (for `d < 10`). -/
def dCh (d : Nat) : Char := Char.ofNat (48 + d)

/-- Fueled base-10 digit list of a natural number, least significant first.
Fuel `n + 1` always suffices. -/
def natDigsF : Nat → Nat → List Nat
  | 0, _ => []
  | f + 1, n => if n = 0 then [] else n % 10 :: natDigsF f (n / 10)

/-- Decimal digit characters of `n`, most significant first (empty for 0). -/
def natChars (n : Nat) : List Char := ((natDigsF (n + 1) n).map dCh).reverse

/-- Decimal rendering of a natural number, as JavaScript template
interpolation prints it. -/
def natString (n : Nat) : String :=
  if n = 0 then "0" else String.mk (natChars n)

/-- Fueled fractional-part expansion: digits of `r / d` after the decimal
point, stopping when the remainder is 0 (or at the fuel bound). -/
def fracChars : Nat → Nat → Nat → List Char
  | 0, _, _ => []
  | f + 1, r, d =>
    if r = 0 then []
    else dCh (r * 10 / d) :: fracChars f (r * 10 % d) d

/-- Decimal rendering of a rational, as JavaScript prints the finite-decimal
numbers the store interpolates (`${record.latitude}`, `${limitValue}`, ...). -/
def jsRatString (q : ℚ) : String :=
  let na := q.num.natAbs
  let ip := na / q.den
  let r := na % q.den
  (if q.num < 0 then "-" else "") ++
    (if r = 0 then natString ip
     else natString ip ++ "." ++ String.mk (fracChars 20 r q.den))

/-- The `LocationHistoryRecord` interface of the source.  `weather_data` and
`nearby_places` are held as the JSON text `JSON.stringify` would produce for
them; `none` is TypeScript `undefined`. -/
structure LocationHistoryRecord where
  id : String
  latitude : ℚ
  longitude : ℚ
  description : String
  timestamp : String
  image_data : Option String
  analysis_mode : String
  confidence_score : Option ℚ
  source : String
  weather_data : Option String
  nearby_places : Option String
deriving DecidableEq

/-- A row of the `location_history` table (NULL is `none`). -/
structure LocationRow where
  id : String
  latitude : ℚ
  longitude : ℚ
  description : String
  timestamp : String
  image_data : Option String
  analysis_mode : String
  confidence_score : Option ℚ
  source : String
  weather_data : Option String
  nearby_places : Option String
deriving DecidableEq

/-- The `LocationSummary` interface of the source (no `image_data`). -/
structure LocationSummary where
  id : String
  latitude : ℚ
  longitude : ℚ
  description : String
  timestamp : String
  analysis_mode : String
  source : String
deriving DecidableEq

/-- The summary projection used by `getLocationHistory` and
`searchLocationHistory`: the seven summary columns of a row; `image_data`
is not part of it. -/
def toSummary (r : LocationRow) : LocationSummary :=
  { id := r.id, latitude := r.latitude, longitude := r.longitude,
    description := r.description, timestamp := r.timestamp,
    analysis_mode := r.analysis_mode, source := r.source }

/-- JavaScript truthiness of an optional string: `undefined` and `""` are
falsy. -/
def jsTruthyStr : Option String → Bool
  | none => false
  | some s => !(s == "")

/-- The record reconstruction of `getLocationById` (its `JSON.parse` /
`JSON.stringify` pair is the identity on the stored JSON text). -/
def toRecord (row : LocationRow) : LocationHistoryRecord :=
  { id := row.id, latitude := row.latitude, longitude := row.longitude,
    description := row.description, timestamp := row.timestamp,
    image_data := row.image_data, analysis_mode := row.analysis_mode,
    confidence_score := row.confidence_score, source := row.source,
    weather_data := if jsTruthyStr row.weather_data then row.weather_data else none,
    nearby_places :=
      some (if jsTruthyStr row.nearby_places then row.nearby_places.getD "" else "[]") }

/-- `${record.confidence_score || 'NULL'}`: absent and 0 both print `NULL`. -/
def confFrag (c : Option ℚ) : String :=
  match c with
  | none => "NULL"
  | some q => if q = 0 then "NULL" else jsRatString q

/-- `${record.image_data ? `...` : 'NULL'}` value fragment. -/
def imageFrag (d : Option String) : String :=
  if jsTruthyStr d then "'" ++ escQuote (d.getD "") ++ "'" else "NULL"

/-- `JSON.stringify(record.weather_data || {})`. -/
def weatherJson (w : Option String) : String :=
  match w with
  | some j => j
  | none => "\x7b\x7d"

/-- `JSON.stringify(record.nearby_places || [])`. -/
def nearbyJson (w : Option String) : String :=
  match w with
  | some j => j
  | none => "[]"

/-- The INSERT statement `saveLocationHistory` builds, transcribed verbatim
from the template literal (note: the source is missing the closing single
quote after the escaped `id`, `description`, `weather_data` and
`nearby_places` values). -/
def buildSaveQuery (r : LocationHistoryRecord) : String :=
  "\n        INSERT INTO location_history (\n          id, latitude, longitude, description, timestamp, \n          image_data, analysis_mode, confidence_score, source, \n          weather_data, nearby_places\n        ) VALUES (\n          '"
  ++ escQuote r.id ++ ",\n          "
  ++ jsRatString r.latitude ++ ",\n          "
  ++ jsRatString r.longitude ++ ",\n          '"
  ++ escQuote r.description ++ ",\n          '"
  ++ r.timestamp ++ "',\n          "
  ++ imageFrag r.image_data ++ ",\n          '"
  ++ r.analysis_mode ++ "',\n          "
  ++ confFrag r.confidence_score ++ ",\n          '"
  ++ r.source ++ "',\n          '"
  ++ escQuote (weatherJson r.weather_data) ++ ",\n          '"
  ++ escQuote (nearbyJson r.nearby_places) ++ "\n        )\n      "

/-- The INSERT statement `loadFromIndexedDBBackup` builds per replayed
record (same shape as the save insert, at the deeper indentation of the
source, with the same missing closing quotes). -/
def buildReplayQuery (r : LocationHistoryRecord) : String :=
  "\n            INSERT INTO location_history (\n              id, latitude, longitude, description, timestamp, \n              image_data, analysis_mode, confidence_score, source, \n              weather_data, nearby_places\n            ) VALUES (\n              '"
  ++ escQuote r.id ++ ",\n              "
  ++ jsRatString r.latitude ++ ",\n              "
  ++ jsRatString r.longitude ++ ",\n              '"
  ++ escQuote r.description ++ ",\n              '"
  ++ r.timestamp ++ "',\n              "
  ++ imageFrag r.image_data ++ ",\n              '"
  ++ r.analysis_mode ++ "',\n              "
  ++ confFrag r.confidence_score ++ ",\n              '"
  ++ r.source ++ "',\n              '"
  ++ escQuote (weatherJson r.weather_data) ++ ",\n              '"
  ++ escQuote (nearbyJson r.nearby_places) ++ "\n            )\n      "

/-- Leading literal of the `getLocationHistory` template, up to
`${limitValue}`. -/
def kListHeadS : String :=
  "\n        SELECT \n          id,\n          latitude,\n          longitude,\n          description,\n          timestamp,\n          analysis_mode,\n          source\n        FROM location_history \n        ORDER BY timestamp DESC \n        LIMIT "

/-- Trailing literal shared by the multi-line templates (closing-backtick
indentation). -/
def kTailS : String := "\n      "

/-- The SELECT of `getLocationHistory`, with the already-resolved
`limitValue` interpolated. -/
def buildListQuery (limitValue : ℚ) : String :=
  kListHeadS ++ jsRatString limitValue ++ kTailS

/-- Leading literal of the `getLocationById` template, up to `${id}`. -/
def kByIdHeadS : String :=
  "\n        SELECT * FROM location_history WHERE id = '"

/-- Trailing literal after an interpolated id: closing quote plus template
tail. -/
def kLitTailS : String := "'\n      "

/-- The SELECT of `getLocationById`; the id is interpolated raw, with no
escaping step. -/
def buildByIdQuery (id : String) : String :=
  kByIdHeadS ++ id ++ kLitTailS

/-- Leading literal of the `searchLocationHistory` template, up to
`${searchTerm}`. -/
def kSearchHeadS : String :=
  "\n        SELECT \n          id,\n          latitude,\n          longitude,\n          description,\n          timestamp,\n          analysis_mode,\n          source\n        FROM location_history \n        WHERE description ILIKE '%"

/-- Middle literal of the search template, between `${searchTerm}` and
`${limitValue}`. -/
def kSearchMidS : String :=
  "%'\n        ORDER BY timestamp DESC \n        LIMIT "

/-- The SELECT of `searchLocationHistory`; the search term is interpolated
raw inside the ILIKE pattern. -/
def buildSearchQuery (searchTerm : String) (limitValue : ℚ) : String :=
  kSearchHeadS ++ searchTerm ++ kSearchMidS ++ jsRatString limitValue ++ kTailS

/-- Leading literal of the `deleteLocationHistory` template, up to `${id}`. -/
def kDelHeadS : String :=
  "\n        DELETE FROM location_history WHERE id = '"

/-- The DELETE of `deleteLocationHistory`; the id is interpolated raw. -/
def buildDeleteQuery (id : String) : String :=
  kDelHeadS ++ id ++ kLitTailS

/-- The DELETE of `clearAllHistory`. -/
def clearQuery : String := "DELETE FROM location_history"

/-! ### The embedded SQL engine (collaborator A)

A genuine lexer for single-quoted SQL string literals (with `''` as the
escaped quote), a parser recognising the statement shapes built above, and
list-of-rows semantics for the single `location_history` table. -/

/-- Lex the body of a single-quoted SQL string literal, the opening quote
already consumed.  `''` is an escaped quote; reaching the end of input with
the literal still open is a lexical error. -/
def lexStr : List Char → Option (List Char × List Char)
  | [] => none
  | c :: cs =>
    if c = sq then
      match cs with
      | [] => some ([], [])
      | c2 :: cs2 =>
        if c2 = sq then
          match lexStr cs2 with
          | some p => some (sq :: p.1, p.2)
          | none => none
        else some ([], cs)
    else
      match lexStr cs with
      | some p => some (c :: p.1, p.2)
      | none => none

/-- Decimal digit test. -/
def isDigC (c : Char) : Bool := 48 ≤ c.toNat && c.toNat ≤ 57

/-- Split a leading run of decimal digits. -/
def lexDigits : List Char → List Char × List Char
  | [] => ([], [])
  | c :: cs =>
    if isDigC c then
      let p := lexDigits cs
      (c :: p.1, p.2)
    else ([], c :: cs)

/-- Numeric value of a digit run, most significant first. -/
def digsVal (ds : List Char) : Nat :=
  ds.foldl (fun a c => 10 * a + (c.toNat - 48)) 0

/-- Strip an expected leading character sequence. -/
def dropLead : List Char → List Char → Option (List Char)
  | [], s => some s
  | _ :: _, [] => none
  | p :: ps, c :: cs => if p = c then dropLead ps cs else none

/-- `true` when the two lists disagree at some position both of them have:
then no extension of the second starts with the first. -/
def headClash (p a : List Char) : Bool :=
  (List.zip p a).any (fun x => x.1 != x.2)

/-- Skip SQL whitespace. -/
def skipWs : List Char → List Char
  | [] => []
  | c :: cs =>
    if c = ' ' || c = '\n' || c = '\t' || c = '\r' then skipWs cs else c :: cs

/-- Split a leading identifier-like word. -/
def lexWord : List Char → List Char × List Char
  | [] => ([], [])
  | c :: cs =>
    if c.isAlpha || c = '_' then
      let p := lexWord cs
      (c :: p.1, p.2)
    else ([], c :: cs)

/-- Split a leading numeric-literal token. -/
def lexNumTok : List Char → List Char × List Char
  | [] => ([], [])
  | c :: cs =>
    if isDigC c || c = '.' || c = '-' then
      let p := lexNumTok cs
      (c :: p.1, p.2)
    else ([], c :: cs)

/-- A SQL value inside a VALUES tuple. -/
inductive SqlVal
  | vstr (s : String)
  | vnum (s : String)
  | vnull
deriving DecidableEq

/-- Lex one value of a VALUES tuple (string literal, number, or NULL);
anything else — in particular a bare word in value position — is a parse
error. -/
def lexVal : List Char → Option (SqlVal × List Char)
  | [] => none
  | c :: cs =>
    if c = sq then
      match lexStr cs with
      | some p => some (.vstr (String.mk p.1), p.2)
      | none => none
    else if isDigC c || c = '-' then
      let p := lexNumTok (c :: cs)
      some (.vnum (String.mk p.1), p.2)
    else
      let p := lexWord (c :: cs)
      if p.1 = "NULL".data then some (.vnull, p.2) else none

/-- Fueled parser for a comma-separated VALUES tuple up to its closing
parenthesis.  Fuel `length + 1` always suffices. -/
def parseVals : Nat → List Char → Option (List SqlVal × List Char)
  | 0, _ => none
  | f + 1, cs =>
    match lexVal (skipWs cs) with
    | none => none
    | some (v, rest) =>
      match skipWs rest with
      | ',' :: r2 =>
        match parseVals f r2 with
        | some p => some (v :: p.1, p.2)
        | none => none
      | ')' :: r2 => some ([v], r2)
      | _ => none

/-- Powers of ten. -/
def pow10 : Nat → Nat
  | 0 => 1
  | n + 1 => 10 * pow10 n

/-- Assemble a signed decimal `ip.fp` with `k` fractional digits. -/
def ratSign (neg : Bool) (ip fp k : Nat) : ℚ :=
  let v : ℚ := (ip : ℚ) + (fp : ℚ) / (pow10 k : ℚ)
  if neg then -v else v

/-- Parse a decimal numeric literal into a rational. -/
def ratOfDec (cs : List Char) : Option ℚ :=
  let p :=
    match cs with
    | c :: rest => if c = '-' then (true, rest) else (false, cs)
    | [] => (false, ([] : List Char))
  let ip := lexDigits p.2
  if ip.1 = [] then none
  else
    match ip.2 with
    | [] => some (ratSign p.1 (digsVal ip.1) 0 0)
    | c :: rest =>
      if c = '.' then
        let fp := lexDigits rest
        if fp.1 = [] then none
        else if fp.2 = [] then
          some (ratSign p.1 (digsVal ip.1) (digsVal fp.1) fp.1.length)
        else none
      else none

/-- Interpret the image-data value of an INSERT tuple. -/
def imgVal : SqlVal → Option (Option String)
  | .vstr s => some (some s)
  | .vnull => some none
  | .vnum _ => none

/-- Interpret the confidence value of an INSERT tuple. -/
def confVal : SqlVal → Option (Option ℚ)
  | .vnull => some none
  | .vnum s => (ratOfDec s.data).map some
  | .vstr _ => none

/-- Type-check an 11-value tuple against the `location_history` columns. -/
def rowOfVals : List SqlVal → Option LocationRow
  | [.vstr i, .vnum la, .vnum lo, .vstr d, .vstr ts, img, .vstr mode, conf,
     .vstr src, .vstr w, .vstr np] =>
    match ratOfDec la.data, ratOfDec lo.data with
    | some laq, some loq =>
      match imgVal img, confVal conf with
      | some io, some co =>
        some { id := i, latitude := laq, longitude := loq, description := d,
               timestamp := ts, image_data := io, analysis_mode := mode,
               confidence_score := co, source := src,
               weather_data := some w, nearby_places := some np }
      | _, _ => none
    | _, _ => none
  | _ => none

/-- A parsed statement. -/
inductive Stmt
  | insertRow (r : LocationRow)
  | selectList (n : Nat)
  | selectById (id : String)
  | searchStmt (pat : String) (n : Nat)
  | deleteById (id : String)
  | deleteAll
deriving DecidableEq

/-- Head of the `clearAllHistory` DELETE. -/
def kClearD : List Char := "DELETE FROM location_history".data

/-- Head of the save-INSERT, up to and including `VALUES (`. -/
def kInsSaveD : List Char :=
  "\n        INSERT INTO location_history (\n          id, latitude, longitude, description, timestamp, \n          image_data, analysis_mode, confidence_score, source, \n          weather_data, nearby_places\n        ) VALUES (".data

/-- Head of the replay-INSERT, up to and including `VALUES (`. -/
def kInsReplayD : List Char :=
  "\n            INSERT INTO location_history (\n              id, latitude, longitude, description, timestamp, \n              image_data, analysis_mode, confidence_score, source, \n              weather_data, nearby_places\n            ) VALUES (".data

/-- Shared column head of the two summary SELECTs. -/
def kSelColsD : List Char :=
  "\n        SELECT \n          id,\n          latitude,\n          longitude,\n          description,\n          timestamp,\n          analysis_mode,\n          source\n        FROM location_history \n        ".data

/-- `ORDER BY ... LIMIT ` continuation of the list SELECT. -/
def kOrdLimD : List Char := "ORDER BY timestamp DESC \n        LIMIT ".data

/-- `WHERE description ILIKE ` continuation of the search SELECT. -/
def kIlikeD : List Char := "WHERE description ILIKE ".data

/-- `ORDER BY ... LIMIT ` continuation after the ILIKE pattern. -/
def kOrdLim2D : List Char := "\n        ORDER BY timestamp DESC \n        LIMIT ".data

/-- Head of the `getLocationById` SELECT, up to the id literal. -/
def kByIdD : List Char :=
  "\n        SELECT * FROM location_history WHERE id = ".data

/-- Head of the `deleteLocationHistory` DELETE, up to the id literal. -/
def kDelByIdD : List Char :=
  "\n        DELETE FROM location_history WHERE id = ".data

/-- Trailing whitespace of every multi-line template. -/
def kTailD : List Char := "\n      ".data

/-- Parse the `LIMIT n` tail. -/
def parseLimitTail (cs : List Char) : Option Nat :=
  let p := lexDigits cs
  if p.1 = [] then none
  else if p.2 = kTailD then some (digsVal p.1) else none

/-- Parse a trailing `'...'` literal followed by the template tail. -/
def parseLitTail (cs : List Char) : Option String :=
  match cs with
  | [] => none
  | c :: r =>
    if c = sq then
      match lexStr r with
      | some p => if p.2 = kTailD then some (String.mk p.1) else none
      | none => none
    else none

/-- Parse the VALUES tuple tail of an INSERT. -/
def parseInsTail (cs : List Char) : Option Stmt :=
  match parseVals (cs.length + 1) cs with
  | some p =>
    if p.2 = kTailD then
      match rowOfVals p.1 with
      | some row => some (.insertRow row)
      | none => none
    else none
  | none => none

/-- Parse the continuation of a summary SELECT (plain list or ILIKE
search). -/
def parseSelTail (cs : List Char) : Option Stmt :=
  match dropLead kOrdLimD cs with
  | some r2 => (parseLimitTail r2).map .selectList
  | none =>
    match dropLead kIlikeD cs with
    | some r2 =>
      match r2 with
      | [] => none
      | c :: r3 =>
        if c = sq then
          match lexStr r3 with
          | some p =>
            match dropLead kOrdLim2D p.2 with
            | some r5 => (parseLimitTail r5).map (fun n => .searchStmt (String.mk p.1) n)
            | none => none
          | none => none
        else none
    | none => none

/-- Parse a query string into a statement; queries not lexing into one of
the emitted statement shapes are malformed. -/
def parseQuery (cs : List Char) : Option Stmt :=
  match dropLead kClearD cs with
  | some rest => if rest = [] then some .deleteAll else none
  | none =>
    match dropLead kInsSaveD cs with
    | some rest => parseInsTail rest
    | none =>
      match dropLead kInsReplayD cs with
      | some rest => parseInsTail rest
      | none =>
        match dropLead kSelColsD cs with
        | some rest => parseSelTail rest
        | none =>
          match dropLead kByIdD cs with
          | some rest => (parseLitTail rest).map .selectById
          | none =>
            match dropLead kDelByIdD cs with
            | some rest => (parseLitTail rest).map .deleteById
            | none => none

/-- ASCII lower-casing used by the ILIKE model. -/
def lowC : Char → Char
  | 'A' => 'a'
  | 'B' => 'b'
  | 'C' => 'c'
  | 'D' => 'd'
  | 'E' => 'e'
  | 'F' => 'f'
  | 'G' => 'g'
  | 'H' => 'h'
  | 'I' => 'i'
  | 'J' => 'j'
  | 'K' => 'k'
  | 'L' => 'l'
  | 'M' => 'm'
  | 'N' => 'n'
  | 'O' => 'o'
  | 'P' => 'p'
  | 'Q' => 'q'
  | 'R' => 'r'
  | 'S' => 's'
  | 'T' => 't'
  | 'U' => 'u'
  | 'V' => 'v'
  | 'W' => 'w'
  | 'X' => 'x'
  | 'Y' => 'y'
  | 'Z' => 'z'
  | c => c

/-- Lower-case a character list. -/
def lowL (l : List Char) : List Char := l.map lowC

/-- Fueled LIKE-pattern matcher (`%` = any sequence, `_` = any single
character); fuel `|pattern| + |text| + 1` always suffices. -/
def likeF : Nat → List Char → List Char → Bool
  | 0, _, _ => false
  | f + 1, p, s =>
    match p with
    | [] => s.isEmpty
    | c :: ps =>
      if c = pc then
        likeF f ps s ||
          (match s with
           | [] => false
           | _ :: s2 => likeF f (c :: ps) s2)
      else if c = uc then
        match s with
        | [] => false
        | _ :: s2 => likeF f ps s2
      else
        match s with
        | [] => false
        | d :: s2 => (c == d) && likeF f ps s2

/-- LIKE-pattern matching (both sides already lower-cased by the caller for
ILIKE). -/
def likeM (p s : List Char) : Bool := likeF (p.length + s.length + 1) p s

/-- Boolean prefix test on character lists. -/
def isPrefB : List Char → List Char → Bool
  | [], _ => true
  | _ :: _, [] => false
  | a :: as, b :: bs => a == b && isPrefB as bs

/-- Boolean infix (contiguous substring) test on character lists. -/
def isInfB : List Char → List Char → Bool
  | t, [] => isPrefB t []
  | t, c :: s2 => isPrefB t (c :: s2) || isInfB t s2

/-- Case-insensitive substring containment of strings — the specification
reading of `search`. -/
def ciContainsB (t s : String) : Bool := isInfB (lowL t.data) (lowL s.data)

/-- Strict lexicographic order on character lists (code-point order); on the
ISO-8601 timestamps the application stores this is chronological order,
matching the engine's `ORDER BY timestamp`. -/
def lexLt : List Char → List Char → Bool
  | [], [] => false
  | [], _ :: _ => true
  | _ :: _, [] => false
  | a :: as, b :: bs =>
    decide (a.toNat < b.toNat) || (a == b && lexLt as bs)

/-- Strict timestamp order on strings. -/
def tsLtB (a b : String) : Bool := lexLt a.data b.data

/-- `x` sorts no later than `y` in descending-timestamp order. -/
def tsGeB (x y : LocationRow) : Bool := !(tsLtB x.timestamp y.timestamp)

/-- Insert a row into a descending-by-timestamp list. -/
def insDesc (x : LocationRow) : List LocationRow → List LocationRow
  | [] => [x]
  | y :: ys => if tsGeB x y then x :: y :: ys else y :: insDesc x ys

/-- `ORDER BY timestamp DESC`: insertion sort, newest first. -/
def sortDesc (l : List LocationRow) : List LocationRow := l.foldr insDesc []

/-- Adjacent-pairs check that a row list is in descending timestamp order. -/
def chainDescB : List LocationRow → Bool
  | [] => true
  | [_] => true
  | x :: y :: r => tsGeB x y && chainDescB (y :: r)

/-- Engine-level failures. -/
inductive QueryFault
  | malformed
  | duplicateKey
deriving DecidableEq

/-- Statement semantics on the `location_history` table: returns the new
table and the result rows. -/
def execStmt (st : Stmt) (t : List LocationRow) :
    Except QueryFault (List LocationRow × List LocationRow) :=
  match st with
  | .insertRow r =>
    if t.any (fun x => x.id == r.id) then .error .duplicateKey
    else .ok (t ++ [r], [])
  | .selectList n => .ok (t, (sortDesc t).take n)
  | .selectById i => .ok (t, t.filter (fun x => x.id == i))
  | .searchStmt pat n =>
    .ok (t, (sortDesc (t.filter
      (fun x => likeM (lowL pat.data) (lowL x.description.data)))).take n)
  | .deleteById i => .ok (t.filter (fun x => x.id != i), [])
  | .deleteAll => .ok ([], [])

/-- Execute a query string: parse, then run. -/
def execQuery (q : String) (t : List LocationRow) :
    Except QueryFault (List LocationRow × List LocationRow) :=
  match parseQuery q.data with
  | none => .error .malformed
  | some st => execStmt st t

/-! ### The facade operations

State and environment for the post-initialisation operations of
`LocationHistoryDB`.  The `World` fixes which persistence strategy was
selected at initialisation (`useOPFS`) and whether the two secondary
durability mechanisms — the OPFS `CHECKPOINT` and the IndexedDB backup
store — currently succeed. -/

/-- Environment of a session. -/
structure World where
  useOPFS : Bool
  checkpointOk : Bool
  idbOk : Bool
deriving DecidableEq

/-- Store state: the engine table plus the single-key IndexedDB backup
snapshot (`records` key of the `locationHistory` object store). -/
structure DBState where
  table : List LocationRow
  backup : List LocationHistoryRecord
deriving DecidableEq

/-- Warnings the class only logs (`console.warn`). -/
inductive WarnEvt
  | checkpointFailed
  | backupFailed
deriving DecidableEq

/-- Errors a mutation rethrows to its caller. -/
inductive MutationError
  | engine (q : QueryFault)
  | backupSync
deriving DecidableEq

/-- `saveToOPFS`: issue `CHECKPOINT`; failure is caught and logged as a
warning, never thrown. -/
def saveToOPFS (w : World) (s : DBState) : DBState × List WarnEvt :=
  if !w.useOPFS then (s, [])
  else if w.checkpointOk then (s, [])
  else (s, [.checkpointFailed])

/-- `getAllFromIndexedDBBackup`: read the full snapshot; rejects when the
IndexedDB area fails. -/
def getAllFromIndexedDBBackup (w : World) (s : DBState) :
    Except Unit (List LocationHistoryRecord) :=
  if w.idbOk then .ok s.backup else .error ()

/-- `saveAllToIndexedDBBackup`: overwrite the single snapshot entry;
rejects when the IndexedDB area fails. -/
def saveAllToIndexedDBBackup (recs : List LocationHistoryRecord) (w : World)
    (s : DBState) : Except Unit DBState :=
  if w.idbOk then .ok { s with backup := recs } else .error ()

/-- `saveToIndexedDBBackup`: read-all, replace the record with the same id,
write-all; any failure is caught and logged as a warning. -/
def saveToIndexedDBBackup (r : LocationHistoryRecord) (w : World)
    (s : DBState) : DBState × List WarnEvt :=
  match getAllFromIndexedDBBackup w s with
  | .error _ => (s, [.backupFailed])
  | .ok ex =>
    match saveAllToIndexedDBBackup (ex.filter (fun x => x.id != r.id) ++ [r]) w s with
    | .ok s2 => (s2, [])
    | .error _ => (s, [.backupFailed])

/-- `deleteFromIndexedDBBackup`: read-all, filter the id out, write-all;
any failure is caught and logged as a warning. -/
def deleteFromIndexedDBBackup (id : String) (w : World) (s : DBState) :
    DBState × List WarnEvt :=
  match getAllFromIndexedDBBackup w s with
  | .error _ => (s, [.backupFailed])
  | .ok ex =>
    match saveAllToIndexedDBBackup (ex.filter (fun x => x.id != id)) w s with
    | .ok s2 => (s2, [])
    | .error _ => (s, [.backupFailed])

/-- `saveLocationHistory`: run the built INSERT; on success run the
strategy's durability step (whose failures are swallowed); engine failures
are rethrown. -/
def saveLocationHistory (r : LocationHistoryRecord) (w : World) (s : DBState) :
    DBState × List WarnEvt × Option MutationError :=
  match execQuery (buildSaveQuery r) s.table with
  | .error q => (s, [], some (.engine q))
  | .ok t2 =>
    let s2 := { s with table := t2.1 }
    if w.useOPFS then
      let p := saveToOPFS w s2
      (p.1, p.2, none)
    else
      let p := saveToIndexedDBBackup r w s2
      (p.1, p.2, none)

/-- `getLocationHistory(limit = 50)`. -/
def getLocationHistory (limit : JsNum) (s : DBState) :
    Except QueryFault (List LocationSummary) :=
  let limitValue := jsOr limit 50
  match execQuery (buildListQuery limitValue) s.table with
  | .error q => .error q
  | .ok t2 => .ok (t2.2.map toSummary)

/-- `getLocationById`. -/
def getLocationById (id : String) (s : DBState) :
    Except QueryFault (Option LocationHistoryRecord) :=
  match execQuery (buildByIdQuery id) s.table with
  | .error q => .error q
  | .ok t2 =>
    match t2.2 with
    | [] => .ok none
    | row :: _ => .ok (some (toRecord row))

/-- `searchLocationHistory(term, limit = 20)`. -/
def searchLocationHistory (searchTerm : String) (limit : JsNum) (s : DBState) :
    Except QueryFault (List LocationSummary) :=
  let limitValue := jsOr limit 20
  match execQuery (buildSearchQuery searchTerm limitValue) s.table with
  | .error q => .error q
  | .ok t2 => .ok (t2.2.map toSummary)

/-- `deleteLocationHistory`: run the built DELETE, then the strategy's
durability step (whose failures are swallowed); engine failures are
rethrown. -/
def deleteLocationHistory (id : String) (w : World) (s : DBState) :
    DBState × List WarnEvt × Option MutationError :=
  match execQuery (buildDeleteQuery id) s.table with
  | .error q => (s, [], some (.engine q))
  | .ok t2 =>
    let s2 := { s with table := t2.1 }
    if w.useOPFS then
      let p := saveToOPFS w s2
      (p.1, p.2, none)
    else
      let p := deleteFromIndexedDBBackup id w s2
      (p.1, p.2, none)

/-- `clearAllHistory`: run `DELETE FROM location_history`, then the
durability step.  Under the volatile strategy the step is the *bare*
`saveAllToIndexedDBBackup([])`, whose rejection reaches the method's own
catch block and is rethrown. -/
def clearAllHistory (w : World) (s : DBState) :
    DBState × List WarnEvt × Option MutationError :=
  match execQuery clearQuery s.table with
  | .error q => (s, [], some (.engine q))
  | .ok t2 =>
    let s2 := { s with table := t2.1 }
    if w.useOPFS then
      let p := saveToOPFS w s2
      (p.1, p.2, none)
    else
      match saveAllToIndexedDBBackup [] w s2 with
      | .ok s3 => (s3, [], none)
      | .error _ => (s2, [], some .backupSync)

/-! ### Backup replay (`loadFromIndexedDBBackup`)

Replay of the snapshot into the freshly created in-memory table.  A record
whose insert fails is logged and skipped (inner try/catch of the loop); the
loop itself continues, and the outer try/catch keeps the method from ever
throwing. -/

/-- One loop iteration of the replay: try the record's INSERT; an insert
failure is caught (logged) and leaves the table unchanged.  The boolean
reports whether the insert succeeded. -/
def replayStep (t : List LocationRow) (r : LocationHistoryRecord) :
    List LocationRow × Bool :=
  match execQuery (buildReplayQuery r) t with
  | .ok t2 => (t2.1, true)
  | .error _ => (t, false)

/-- Replay a snapshot record list; alongside the final table, log which
record ids were attempted and whether their insert succeeded. -/
def replayRecords : List LocationRow → List LocationHistoryRecord →
    List LocationRow × List (String × Bool)
  | t, [] => (t, [])
  | t, r :: rest =>
    let st := replayStep t r
    let p := replayRecords st.1 rest
    (p.1, (r.id, st.2) :: p.2)

/-- `loadFromIndexedDBBackup`: read the snapshot and replay it; a snapshot
read failure is caught and logged, leaving the table untouched. -/
def loadFromIndexedDBBackup (w : World) (s : DBState) :
    DBState × List (String × Bool) :=
  match getAllFromIndexedDBBackup w s with
  | .error _ => (s, [])
  | .ok recs =>
    let p := replayRecords s.table recs
    ({ s with table := p.1 }, p.2)

/-! ### Single-flight initialisation (`initialize` / `_initialize`)

The synchronous head of `initialize()` is atomic in the JavaScript event
loop: it returns early when already initialised, joins the stored pending
promise when one exists, and otherwise stores a fresh promise for a new
`_initialize()` run.  Each `_initialize()` run constructs exactly one new
engine instance (`new duckdb.AsyncDuckDB` + `instantiate`).  On failure
`_initialize` resets `isInitialized` and clears `initPromise`. -/

/-- Observable session state of the initialisation protocol. -/
structure InitState where
  isInitialized : Bool
  initPromise : Option Nat
  instantiations : Nat
  nextAttempt : Nat
deriving DecidableEq

/-- Fresh session. -/
def initState0 : InitState :=
  { isInitialized := false, initPromise := none,
    instantiations := 0, nextAttempt := 0 }

/-- Events of a session trace: a caller invokes `initialize()`, or the
outstanding `_initialize()` run completes (successfully or not). -/
inductive InitEvent
  | call
  | finish (success : Bool)
deriving DecidableEq

/-- One step of the protocol; for `call` the second component is the
attempt the caller awaits (none when already initialised). -/
def initStep (s : InitState) : InitEvent → InitState × Option Nat
  | .call =>
    if s.isInitialized then (s, none)
    else
      match s.initPromise with
      | some p => (s, some p)
      | none =>
        ({ s with initPromise := some s.nextAttempt,
                  instantiations := s.instantiations + 1,
                  nextAttempt := s.nextAttempt + 1 },
         some s.nextAttempt)
  | .finish success =>
    if success then ({ s with isInitialized := true }, none)
    else ({ s with isInitialized := false, initPromise := none }, none)

/-- Run a trace of initialisation events from a fresh session. -/
def runInit (tr : List InitEvent) : InitState :=
  tr.foldl (fun s e => (initStep s e).1) initState0

/-- Invariant of failure-free sessions: either no attempt was ever started,
or exactly one engine instantiation happened and its promise is still the
stored one. -/
def initInv (s : InitState) : Prop :=
  (s.instantiations = 0 ∧ s.initPromise = none) ∨
  (s.instantiations = 1 ∧ s.initPromise ≠ none)

/-! ### Concrete sample data for the counterexamples -/

/-- A well-formed record with a quote-free description. -/
def recA : LocationHistoryRecord :=
  { id := "loc-a", latitude := 35, longitude := 139,
    description := "Tokyo Station, Japan",
    timestamp := "2024-01-01T00:00:00.000Z", image_data := none,
    analysis_mode := "basic", confidence_score := none, source := "camera",
    weather_data := none, nearby_places := none }

/-- A second well-formed record with a later timestamp. -/
def recB : LocationHistoryRecord :=
  { id := "loc-b", latitude := 35, longitude := 139,
    description := "Shibuya Crossing",
    timestamp := "2024-01-02T00:00:00.000Z", image_data := none,
    analysis_mode := "basic", confidence_score := none, source := "upload",
    weather_data := none, nearby_places := none }

/-- A record whose description contains quote characters. -/
def recQ : LocationHistoryRecord :=
  { id := "loc-q", latitude := 35, longitude := 139,
    description := "Shibuya 'Scramble' Crossing",
    timestamp := "2024-01-03T00:00:00.000Z", image_data := none,
    analysis_mode := "basic", confidence_score := none, source := "camera",
    weather_data := none, nearby_places := none }

/-- A record whose confidence score is exactly 0. -/
def recZ : LocationHistoryRecord :=
  { id := "loc-z", latitude := 35, longitude := 139,
    description := "Ueno Park",
    timestamp := "2024-01-04T00:00:00.000Z", image_data := none,
    analysis_mode := "basic", confidence_score := some 0, source := "camera",
    weather_data := none, nearby_places := none }

/-- A stored row whose description is plain `abc`. -/
def rowP : LocationRow :=
  { id := "row-p", latitude := 1, longitude := 2, description := "abc",
    timestamp := "2024-02-01T00:00:00.000Z", image_data := none,
    analysis_mode := "basic", confidence_score := none, source := "camera",
    weather_data := none, nearby_places := none }

/-- A stored row corresponding to `recA`. -/
def rowA : LocationRow :=
  { id := "loc-a", latitude := 35, longitude := 139,
    description := "Tokyo Station, Japan",
    timestamp := "2024-01-01T00:00:00.000Z", image_data := none,
    analysis_mode := "basic", confidence_score := none, source := "camera",
    weather_data := none, nearby_places := none }

/-- A stored row corresponding to `recB`. -/
def rowB : LocationRow :=
  { id := "loc-b", latitude := 35, longitude := 139,
    description := "Shibuya Crossing",
    timestamp := "2024-01-02T00:00:00.000Z", image_data := none,
    analysis_mode := "basic", confidence_score := none, source := "upload",
    weather_data := none, nearby_places := none }

/-- Empty store. -/
def emptySt : DBState := { table := [], backup := [] }

/-- Store holding only `rowP`. -/
def stP : DBState := { table := [rowP], backup := [] }

/-- Store holding `rowA` and `rowB`. -/
def stAB : DBState := { table := [rowA, rowB], backup := [] }

/-- Volatile strategy, all secondary mechanisms healthy. -/
def wVol : World := { useOPFS := false, checkpointOk := true, idbOk := true }

/-- Volatile strategy with a failing IndexedDB backup area. -/
def wVolBad : World := { useOPFS := false, checkpointOk := true, idbOk := false }

/-- Durable-file strategy with a failing CHECKPOINT. -/
def wOpfsBad : World := { useOPFS := true, checkpointOk := false, idbOk := true }

deriving instance DecidableEq for Except

end LocDB

namespace LocDB

set_option maxRecDepth 40000

/-! ## Lexer and parser lemmas -/

theorem dropLead_self (p r : List Char) : dropLead p (p ++ r) = some r := by
  induction p with
  | nil => rfl
  | cons c cs ih => simp [dropLead, ih]

theorem dropLead_clash (p a r : List Char) (h : headClash p a = true) :
    dropLead p (a ++ r) = none := by
  induction p generalizing a with
  | nil => exfalso; cases a <;> simp [headClash] at h
  | cons x ps ih =>
    cases a with
    | nil => exfalso; simp [headClash] at h
    | cons y as =>
      by_cases hxy : x = y
      · subst hxy
        have h2 : headClash ps as = true := by
          simpa [headClash] using h
        simp [dropLead, ih as h2]
      · simp [dropLead, hxy]

theorem lexStr_exact (v rest : List Char) (hv : sq ∉ v)
    (hr : rest.head? ≠ some sq) :
    lexStr (v ++ sq :: rest) = some (v, rest) := by
  induction v with
  | nil =>
    cases rest with
    | nil => simp [lexStr]
    | cons c cs =>
      have hc : ¬(c = sq) := fun e => hr (by simp [e])
      simp [lexStr, hc]
  | cons c cs ih =>
    have hc : ¬(c = sq) := fun e => hv (by simp [e])
    have hcs : sq ∉ cs := fun m => hv (List.mem_cons_of_mem _ m)
    rw [List.cons_append, lexStr.eq_def]
    simp only [if_neg hc, ih hcs]

theorem natDigsF_eq (f n : Nat) (h : n < f) : natDigsF f n = Nat.digits 10 n := by
  induction f generalizing n with
  | zero => omega
  | succ f ih =>
    by_cases h0 : n = 0
    · subst h0; simp [natDigsF]
    · have h1 : 0 < n := Nat.pos_of_ne_zero h0
      have h2 : n / 10 < f := by
        have := Nat.div_lt_self h1 (by norm_num : (1 : Nat) < 10)
        omega
      rw [natDigsF, if_neg h0, Nat.digits_def' (by norm_num : (1 : Nat) < 10) h1,
        ih (n / 10) h2]

theorem dCh_isDig (d : Nat) (h : d < 10) : isDigC (dCh d) = true := by
  interval_cases d <;> decide

theorem dCh_val (d : Nat) (h : d < 10) : (dCh d).toNat - 48 = d := by
  interval_cases d <;> decide

theorem natChars_eq (n : Nat) :
    natChars n = ((Nat.digits 10 n).map dCh).reverse := by
  rw [natChars, natDigsF_eq (n + 1) n (Nat.lt_succ_self n)]

theorem natChars_digits (n : Nat) : ∀ c ∈ natChars n, isDigC c = true := by
  rw [natChars_eq]
  intro c hc
  rw [List.mem_reverse, List.mem_map] at hc
  obtain ⟨d, hd, rfl⟩ := hc
  exact dCh_isDig d (Nat.digits_lt_base (by norm_num) hd)

theorem natChars_ne_nil (n : Nat) (h : 0 < n) : natChars n ≠ [] := by
  rw [natChars_eq]
  intro e
  rw [List.reverse_eq_nil_iff, List.map_eq_nil_iff] at e
  exact absurd e (by simpa [Nat.digits_ne_nil_iff_ne_zero] using Nat.pos_iff_ne_zero.mp h)

theorem foldr_digsVal (L : List Nat) (hL : ∀ d ∈ L, d < 10) :
    (L.map dCh).foldr (fun c acc => 10 * acc + (c.toNat - 48)) 0 =
      Nat.ofDigits 10 L := by
  induction L with
  | nil => simp [Nat.ofDigits]
  | cons d ds ih =>
    have hd : d < 10 := hL d (by simp)
    have hds : ∀ x ∈ ds, x < 10 := fun x hx => hL x (by simp [hx])
    simp only [List.map_cons, List.foldr_cons, ih hds, Nat.ofDigits_cons,
      dCh_val d hd]
    ring

theorem digsVal_natChars (n : Nat) : digsVal (natChars n) = n := by
  have hlt : ∀ d ∈ Nat.digits 10 n, d < 10 :=
    fun d hd => Nat.digits_lt_base (by norm_num) hd
  rw [natChars_eq, digsVal, List.foldl_reverse]
  rw [show (fun (x : Char) (y : Nat) => 10 * y + (x.toNat - 48)) =
        (fun (c : Char) (acc : Nat) => 10 * acc + (c.toNat - 48)) from rfl]
  rw [foldr_digsVal (Nat.digits 10 n) hlt, Nat.ofDigits_digits]

theorem lexDigits_append (v w : List Char) (hv : ∀ c ∈ v, isDigC c = true)
    (hw : ∀ c, w.head? = some c → isDigC c = false) :
    lexDigits (v ++ w) = (v, w) := by
  induction v with
  | nil =>
    cases w with
    | nil => rfl
    | cons c cs =>
      have h1 : isDigC c = false := hw c rfl
      simp [lexDigits, h1]
  | cons c cs ih =>
    have hc : isDigC c = true := hv c (by simp)
    have hcs : ∀ x ∈ cs, isDigC x = true := fun x hx => hv x (by simp [hx])
    simp [lexDigits, hc, ih hcs]

theorem kTailD_head : ∀ c, kTailD.head? = some c → isDigC c = false := by
  intro c hc
  have h0 : kTailD.head? = some '\n' := rfl
  rw [h0] at hc
  injection hc with h1
  subst h1
  decide

theorem parseLimitTail_n (n : Nat) (h : 0 < n) :
    parseLimitTail (natChars n ++ kTailD) = some n := by
  rw [parseLimitTail, lexDigits_append (natChars n) kTailD (natChars_digits n) kTailD_head]
  simp [natChars_ne_nil n h, digsVal_natChars]

theorem jsRatString_nat (n : Nat) : jsRatString (n : ℚ) = natString n := by
  have h1 : ((n : ℚ)).num = (n : ℤ) := Rat.num_natCast n
  have h2 : ((n : ℚ)).den = 1 := Rat.den_natCast n
  have h3 : ¬((n : ℤ) < 0) := by omega
  simp [jsRatString, h1, h2, h3, Int.natAbs_ofNat, Nat.mod_one, Nat.div_one]

theorem natString_data (n : Nat) (h : 0 < n) : (natString n).data = natChars n := by
  rw [natString, if_neg (by omega)]

theorem String_mk_data (s : String) : String.mk s.data = s := rfl

/-! ## Query-text decompositions -/

theorem kListHeadS_data : kListHeadS.data = kSelColsD ++ kOrdLimD := by decide

theorem kTailS_data : kTailS.data = kTailD := rfl

theorem kByIdHeadS_data : kByIdHeadS.data = kByIdD ++ [sq] := by decide

theorem kLitTailS_data : kLitTailS.data = sq :: kTailD := by decide

theorem kSearchHeadS_data :
    kSearchHeadS.data = kSelColsD ++ (kIlikeD ++ [sq, pc]) := by decide

theorem kSearchMidS_data : kSearchMidS.data = pc :: sq :: kOrdLim2D := by decide

theorem kDelHeadS_data : kDelHeadS.data = kDelByIdD ++ [sq] := by decide

theorem buildListQuery_data (n : Nat) (h : 0 < n) :
    (buildListQuery (n : ℚ)).data =
      kSelColsD ++ (kOrdLimD ++ (natChars n ++ kTailD)) := by
  rw [buildListQuery, String.data_append, String.data_append, kListHeadS_data,
    kTailS_data, jsRatString_nat, natString_data n h]
  simp [List.append_assoc]

theorem buildByIdQuery_data (id : String) :
    (buildByIdQuery id).data = kByIdD ++ (sq :: (id.data ++ (sq :: kTailD))) := by
  rw [buildByIdQuery, String.data_append, String.data_append, kByIdHeadS_data,
    kLitTailS_data]
  simp [List.append_assoc]

theorem buildDeleteQuery_data (id : String) :
    (buildDeleteQuery id).data =
      kDelByIdD ++ (sq :: (id.data ++ (sq :: kTailD))) := by
  rw [buildDeleteQuery, String.data_append, String.data_append, kDelHeadS_data,
    kLitTailS_data]
  simp [List.append_assoc]

theorem buildSearchQuery_data (t : String) (n : Nat) (h : 0 < n) :
    (buildSearchQuery t (n : ℚ)).data =
      kSelColsD ++ (kIlikeD ++ (sq :: pc ::
        (t.data ++ (pc :: (sq :: (kOrdLim2D ++ (natChars n ++ kTailD))))))) := by
  rw [buildSearchQuery, String.data_append, String.data_append, String.data_append,
    String.data_append, kSearchHeadS_data, kSearchMidS_data, kTailS_data,
    jsRatString_nat, natString_data n h]
  simp [List.append_assoc]

/-! ## Statement-head discrimination -/

theorem noClear_sel (r : List Char) : dropLead kClearD (kSelColsD ++ r) = none :=
  dropLead_clash _ _ _ (by decide)

theorem noInsS_sel (r : List Char) : dropLead kInsSaveD (kSelColsD ++ r) = none :=
  dropLead_clash _ _ _ (by decide)

theorem noInsR_sel (r : List Char) : dropLead kInsReplayD (kSelColsD ++ r) = none :=
  dropLead_clash _ _ _ (by decide)

theorem noClear_byId (r : List Char) : dropLead kClearD (kByIdD ++ r) = none :=
  dropLead_clash _ _ _ (by decide)

theorem noInsS_byId (r : List Char) : dropLead kInsSaveD (kByIdD ++ r) = none :=
  dropLead_clash _ _ _ (by decide)

theorem noInsR_byId (r : List Char) : dropLead kInsReplayD (kByIdD ++ r) = none :=
  dropLead_clash _ _ _ (by decide)

theorem noSel_byId (r : List Char) : dropLead kSelColsD (kByIdD ++ r) = none :=
  dropLead_clash _ _ _ (by decide)

theorem noClear_del (r : List Char) : dropLead kClearD (kDelByIdD ++ r) = none :=
  dropLead_clash _ _ _ (by decide)

theorem noInsS_del (r : List Char) : dropLead kInsSaveD (kDelByIdD ++ r) = none :=
  dropLead_clash _ _ _ (by decide)

theorem noInsR_del (r : List Char) : dropLead kInsReplayD (kDelByIdD ++ r) = none :=
  dropLead_clash _ _ _ (by decide)

theorem noSel_del (r : List Char) : dropLead kSelColsD (kDelByIdD ++ r) = none :=
  dropLead_clash _ _ _ (by decide)

theorem noById_del (r : List Char) : dropLead kByIdD (kDelByIdD ++ r) = none :=
  dropLead_clash _ _ _ (by decide)

theorem noOrd_ilike (r : List Char) : dropLead kOrdLimD (kIlikeD ++ r) = none :=
  dropLead_clash _ _ _ (by decide)

/-! ## Parse lemmas for the built queries -/

theorem parseQuery_list (n : Nat) (h : 0 < n) :
    parseQuery (buildListQuery (n : ℚ)).data = some (.selectList n) := by
  rw [buildListQuery_data n h]
  unfold parseQuery parseSelTail
  simp only [noClear_sel, noInsS_sel, noInsR_sel, dropLead_self,
    parseLimitTail_n n h, Option.map_some']

theorem parseQuery_byId (id : String) (hq : sq ∉ id.data) :
    parseQuery (buildByIdQuery id).data = some (.selectById id) := by
  rw [buildByIdQuery_data id]
  unfold parseQuery parseLitTail
  simp only [noClear_byId, noInsS_byId, noInsR_byId, noSel_byId, dropLead_self]
  rw [lexStr_exact id.data kTailD hq (by decide)]
  simp [String_mk_data]

theorem parseQuery_del (id : String) (hq : sq ∉ id.data) :
    parseQuery (buildDeleteQuery id).data = some (.deleteById id) := by
  rw [buildDeleteQuery_data id]
  unfold parseQuery parseLitTail
  simp only [noClear_del, noInsS_del, noInsR_del, noSel_del, noById_del,
    dropLead_self]
  rw [lexStr_exact id.data kTailD hq (by decide)]
  simp [String_mk_data]

theorem parseQuery_search (t : String) (n : Nat) (hq : sq ∉ t.data) (h : 0 < n) :
    parseQuery (buildSearchQuery t (n : ℚ)).data =
      some (.searchStmt (String.mk (pc :: (t.data ++ [pc]))) n) := by
  rw [buildSearchQuery_data t n h]
  unfold parseQuery parseSelTail
  simp only [noClear_sel, noInsS_sel, noInsR_sel, dropLead_self, noOrd_ilike]
  have hv : sq ∉ (pc :: (t.data ++ [pc])) := by
    intro hm
    rcases List.mem_cons.mp hm with h1 | h2
    · exact absurd h1.symm (by decide)
    · rcases List.mem_append.mp h2 with h3 | h4
      · exact hq h3
      · rw [List.mem_singleton] at h4
        exact absurd h4.symm (by decide)
  have hr : (kOrdLim2D ++ (natChars n ++ kTailD)).head? ≠ some sq := by
    have he : (kOrdLim2D ++ (natChars n ++ kTailD)).head? = some '\n' := rfl
    rw [he]
    decide
  have harr : pc :: (t.data ++ (pc :: (sq :: (kOrdLim2D ++ (natChars n ++ kTailD)))))
      = (pc :: (t.data ++ [pc])) ++ sq :: (kOrdLim2D ++ (natChars n ++ kTailD)) := by
    simp [List.append_assoc]
  rw [harr, lexStr_exact _ _ hv hr]
  simp only [dropLead_self, parseLimitTail_n n h, Option.map_some']
  simp

theorem parseQuery_clear : parseQuery clearQuery.data = some .deleteAll := by decide

/-! ## Ordering lemmas for `sortDesc` -/

theorem lexLt_asymm (a : List Char) : ∀ b, lexLt a b = true → lexLt b a = false := by
  induction a with
  | nil =>
    intro b h
    cases b with
    | nil => simp [lexLt] at h
    | cons c cs => simp [lexLt]
  | cons x xs ih =>
    intro b h
    cases b with
    | nil => simp [lexLt] at h
    | cons y ys =>
      simp only [lexLt, Bool.or_eq_true, decide_eq_true_eq, Bool.and_eq_true,
        beq_iff_eq] at h
      rcases h with hlt | ⟨hxy, hxs⟩
      · have h1 : ¬(y.toNat < x.toNat) := by omega
        have h2 : ¬(y = x) := by
          intro e
          subst e
          omega
        simp [lexLt, h1, h2]
      · subst hxy
        simp [lexLt, ih ys hxs]

theorem tsGeB_total (x y : LocationRow) (h : tsGeB x y = false) :
    tsGeB y x = true := by
  have h1 : tsLtB x.timestamp y.timestamp = true := by
    rcases hb : tsLtB x.timestamp y.timestamp with _ | _
    · rw [tsGeB, hb] at h
      simp at h
    · rfl
  rw [tsGeB, tsLtB]
  rw [tsLtB] at h1
  rw [lexLt_asymm _ _ h1]
  rfl

theorem insDesc_chain (x : LocationRow) (l : List LocationRow)
    (hl : chainDescB l = true) : chainDescB (insDesc x l) = true := by
  induction l with
  | nil => rfl
  | cons y ys ih =>
    by_cases hxy : tsGeB x y = true
    · rw [insDesc, if_pos hxy]
      simp [chainDescB, hxy, hl]
    · have hxyf : tsGeB x y = false := by
        rcases hb : tsGeB x y with _ | _
        · rfl
        · exact absurd hb hxy
      have hyx : tsGeB y x = true := tsGeB_total x y hxyf
      rw [insDesc, if_neg hxy]
      cases ys with
      | nil => simp [insDesc, chainDescB, hyx]
      | cons z zs =>
        have hyz : tsGeB y z = true := by
          rw [chainDescB, Bool.and_eq_true] at hl
          exact hl.1
        have hzs : chainDescB (z :: zs) = true := by
          rw [chainDescB, Bool.and_eq_true] at hl
          exact hl.2
        by_cases hxz : tsGeB x z = true
        · rw [insDesc, if_pos hxz]
          simp [chainDescB, hyx, hxz, hzs]
        · rw [insDesc, if_neg hxz]
          have hch := ih hzs
          rw [insDesc, if_neg hxz] at hch
          simp [chainDescB, hyz, hch]

theorem sortDesc_chain (l : List LocationRow) : chainDescB (sortDesc l) = true := by
  induction l with
  | nil => rfl
  | cons x xs ih =>
    have : sortDesc (x :: xs) = insDesc x (sortDesc xs) := rfl
    rw [this]
    exact insDesc_chain x (sortDesc xs) ih

theorem insDesc_perm (x : LocationRow) (l : List LocationRow) :
    List.Perm (insDesc x l) (x :: l) := by
  induction l with
  | nil => exact List.Perm.refl [x]
  | cons y ys ih =>
    by_cases h : tsGeB x y = true
    · rw [insDesc, if_pos h]
    · rw [insDesc, if_neg h]
      exact List.Perm.trans (List.Perm.cons y ih) (List.Perm.swap x y ys)

theorem sortDesc_perm (l : List LocationRow) : List.Perm (sortDesc l) l := by
  induction l with
  | nil => exact List.Perm.refl []
  | cons x xs ih =>
    have h0 : sortDesc (x :: xs) = insDesc x (sortDesc xs) := rfl
    rw [h0]
    exact List.Perm.trans (insDesc_perm x (sortDesc xs)) (List.Perm.cons x ih)

theorem sortDesc_pair (a b : LocationRow)
    (h : tsLtB a.timestamp b.timestamp = true) : sortDesc [a, b] = [b, a] := by
  have hab : tsGeB a b = false := by
    rw [tsGeB, h]
    rfl
  show insDesc a (insDesc b []) = [b, a]
  rw [show insDesc b [] = [b] from rfl, insDesc, if_neg (by simp [hab])]
  rfl

/-! ## LIKE-pattern lemmas -/

theorem likeF_step (f : Nat) (p s : List Char) :
    likeF (f + 1) p s =
      (match p with
       | [] => s.isEmpty
       | c :: ps =>
         if c = pc then
           likeF f ps s ||
             (match s with
              | [] => false
              | _ :: s2 => likeF f (c :: ps) s2)
         else if c = uc then
           match s with
           | [] => false
           | _ :: s2 => likeF f ps s2
         else
           match s with
           | [] => false
           | d :: s2 => (c == d) && likeF f ps s2) := rfl

theorem likeF_irrel (n : Nat) : ∀ (p s : List Char) (f1 f2 : Nat),
    p.length + s.length = n → n < f1 → n < f2 → likeF f1 p s = likeF f2 p s := by
  induction n using Nat.strong_induction_on with
  | _ n IH =>
    intro p s f1 f2 hn h1 h2
    match f1, f2 with
    | g1 + 1, g2 + 1 =>
      rw [likeF_step, likeF_step]
      cases p with
      | nil => rfl
      | cons c ps =>
        have hps : ps.length + s.length < n := by
          simp only [List.length_cons] at hn
          omega
        by_cases hc : c = pc
        · subst hc
          have e1 : likeF g1 ps s = likeF g2 ps s :=
            IH (ps.length + s.length) hps ps s g1 g2 rfl (by omega) (by omega)
          cases s with
          | nil => simp [e1]
          | cons d s2 =>
            have hs2 : (pc :: ps).length + s2.length < n := by
              simp only [List.length_cons] at hn ⊢
              omega
            have e2 : likeF g1 (pc :: ps) s2 = likeF g2 (pc :: ps) s2 :=
              IH _ hs2 _ _ g1 g2 rfl (by omega) (by omega)
            simp [e1, e2]
        · by_cases hu : c = uc
          · subst hu
            cases s with
            | nil => simp [hc]
            | cons d s2 =>
              have hs2 : ps.length + s2.length < n := by
                simp only [List.length_cons] at hn ⊢
                omega
              have e2 : likeF g1 ps s2 = likeF g2 ps s2 :=
                IH _ hs2 _ _ g1 g2 rfl (by omega) (by omega)
              simp [hc, e2]
          · cases s with
            | nil => simp [hc, hu]
            | cons d s2 =>
              have hs2 : ps.length + s2.length < n := by
                simp only [List.length_cons] at hn ⊢
                omega
              have e2 : likeF g1 ps s2 = likeF g2 ps s2 :=
                IH _ hs2 _ _ g1 g2 rfl (by omega) (by omega)
              simp [hc, hu, e2]

theorem likeM_fuel (p s : List Char) (f : Nat) (hf : p.length + s.length < f) :
    likeF f p s = likeM p s :=
  likeF_irrel (p.length + s.length) p s f (p.length + s.length + 1) rfl hf
    (Nat.lt_succ_self _)

theorem likeM_nilP (s : List Char) : likeM [] s = s.isEmpty := rfl

theorem likeM_pc_nilS (p : List Char) : likeM (pc :: p) [] = likeM p [] := by
  rw [likeM, likeF_step]
  simp
  exact likeM_fuel p [] (p.length + 1) (by simp)

theorem likeM_pc_consS (p : List Char) (d : Char) (s2 : List Char) :
    likeM (pc :: p) (d :: s2) = (likeM p (d :: s2) || likeM (pc :: p) s2) := by
  rw [likeM, likeF_step]
  simp
  rw [likeM_fuel p (d :: s2) (p.length + 1 + (s2.length + 1))
      (by simp only [List.length_cons]; omega),
    likeM_fuel (pc :: p) s2 (p.length + 1 + (s2.length + 1))
      (by simp only [List.length_cons]; omega)]

theorem likeM_uc_nil (p : List Char) : likeM (uc :: p) [] = false := by
  have hup : ¬(uc = pc) := by decide
  rw [likeM, likeF_step]
  simp [hup]

theorem likeM_uc_cons (p : List Char) (d : Char) (s2 : List Char) :
    likeM (uc :: p) (d :: s2) = likeM p s2 := by
  have hup : ¬(uc = pc) := by decide
  rw [likeM, likeF_step]
  simp [hup]
  exact likeM_fuel p s2 (p.length + 1 + (s2.length + 1)) (by omega)

theorem likeM_chr_nil (c : Char) (p : List Char) (hc : ¬(c = pc))
    (hu : ¬(c = uc)) : likeM (c :: p) [] = false := by
  rw [likeM, likeF_step]
  simp [hc, hu]

theorem likeM_chr_cons (c : Char) (p : List Char) (d : Char) (s2 : List Char)
    (hc : ¬(c = pc)) (hu : ¬(c = uc)) :
    likeM (c :: p) (d :: s2) = ((c == d) && likeM p s2) := by
  rw [likeM, likeF_step]
  simp [hc, hu]
  rw [likeM_fuel p s2 (p.length + 1 + (s2.length + 1)) (by omega)]

theorem likeM_pcOnly (s : List Char) : likeM [pc] s = true := by
  induction s with
  | nil => rfl
  | cons d s2 ih =>
    rw [likeM_pc_consS, ih]
    simp

theorem likeM_plain (t : List Char) (hw : ∀ c ∈ t, c ≠ pc ∧ c ≠ uc) :
    ∀ s, likeM (t ++ [pc]) s = isPrefB t s := by
  induction t with
  | nil =>
    intro s
    rw [List.nil_append, likeM_pcOnly]
    rfl
  | cons c t2 ih =>
    intro s
    have hc := hw c (by simp)
    have hw2 : ∀ x ∈ t2, x ≠ pc ∧ x ≠ uc := fun x hx => hw x (by simp [hx])
    rw [List.cons_append]
    cases s with
    | nil =>
      rw [likeM_chr_nil c _ hc.1 hc.2]
      rfl
    | cons d s2 =>
      rw [likeM_chr_cons c _ d s2 hc.1 hc.2, ih hw2 s2]
      rfl

theorem likeM_pcIff (p s : List Char) :
    likeM (pc :: p) s = true ↔ ∃ k, likeM p (s.drop k) = true := by
  induction s with
  | nil =>
    rw [likeM_pc_nilS]
    constructor
    · exact fun h => ⟨0, h⟩
    · rintro ⟨k, hk⟩
      simpa using hk
  | cons d s2 ih =>
    rw [likeM_pc_consS]
    simp only [Bool.or_eq_true]
    constructor
    · rintro (h | h)
      · exact ⟨0, h⟩
      · obtain ⟨k, hk⟩ := ih.mp h
        exact ⟨k + 1, by simpa using hk⟩
    · rintro ⟨k, hk⟩
      cases k with
      | zero => exact .inl (by simpa using hk)
      | succ k => exact .inr (ih.mpr ⟨k, by simpa using hk⟩)

theorem isInfB_iff (t s : List Char) :
    isInfB t s = true ↔ ∃ k, isPrefB t (s.drop k) = true := by
  induction s with
  | nil =>
    rw [isInfB]
    constructor
    · exact fun h => ⟨0, h⟩
    · rintro ⟨k, hk⟩
      simpa using hk
  | cons c s2 ih =>
    rw [isInfB]
    simp only [Bool.or_eq_true]
    constructor
    · rintro (h | h)
      · exact ⟨0, h⟩
      · obtain ⟨k, hk⟩ := ih.mp h
        exact ⟨k + 1, by simpa using hk⟩
    · rintro ⟨k, hk⟩
      cases k with
      | zero => exact .inl (by simpa using hk)
      | succ k => exact .inr (ih.mpr ⟨k, by simpa using hk⟩)

theorem likeM_infix (t s : List Char) (hw : ∀ c ∈ t, c ≠ pc ∧ c ≠ uc) :
    likeM (pc :: (t ++ [pc])) s = isInfB t s := by
  have h1 := likeM_pcIff (t ++ [pc]) s
  have h2 := isInfB_iff t s
  have h3 : ∀ k, likeM (t ++ [pc]) (s.drop k) = isPrefB t (s.drop k) :=
    fun k => likeM_plain t hw _
  rcases hb : likeM (pc :: (t ++ [pc])) s with _ | _
  · rcases hb2 : isInfB t s with _ | _
    · rfl
    · exfalso
      obtain ⟨k, hk⟩ := h2.mp hb2
      have : likeM (pc :: (t ++ [pc])) s = true := h1.mpr ⟨k, by rw [h3 k]; exact hk⟩
      rw [hb] at this
      exact Bool.false_ne_true this
  · obtain ⟨k, hk⟩ := h1.mp hb
    rw [h3 k] at hk
    exact (h2.mpr ⟨k, hk⟩).symm

/-! ## Case-folding lemmas -/

theorem lowC_ne_pc (c : Char) (h : c ≠ pc) : lowC c ≠ pc := by
  rw [lowC.eq_def]
  split
  all_goals first | decide | exact h

theorem lowC_ne_uc (c : Char) (h : c ≠ uc) : lowC c ≠ uc := by
  rw [lowC.eq_def]
  split
  all_goals first | decide | exact h

theorem lowL_noWild (t : List Char) (hp : pc ∉ t) (hu : uc ∉ t) :
    ∀ c ∈ lowL t, c ≠ pc ∧ c ≠ uc := by
  intro c hc
  rw [lowL, List.mem_map] at hc
  obtain ⟨d, hd, rfl⟩ := hc
  exact ⟨lowC_ne_pc d (fun e => hp (e ▸ hd)), lowC_ne_uc d (fun e => hu (e ▸ hd))⟩

/-! ## Facade operation lemmas -/

theorem getLocationHistory_eq (n : Nat) (h : 0 < n) (s : DBState) :
    getLocationHistory (.num (n : ℚ)) s =
      .ok (((sortDesc s.table).take n).map toSummary) := by
  have hne : ¬((n : ℚ) = 0) := by
    exact_mod_cast Nat.pos_iff_ne_zero.mp h
  have hjs : jsOr (.num (n : ℚ)) 50 = (n : ℚ) := by
    show (if (n : ℚ) = 0 then 50 else (n : ℚ)) = (n : ℚ)
    rw [if_neg hne]
  simp only [getLocationHistory, hjs, execQuery, parseQuery_list n h, execStmt]

theorem getLocationById_missing (id : String) (s : DBState)
    (hq : sq ∉ id.data) (hm : ∀ row ∈ s.table, row.id ≠ id) :
    getLocationById id s = .ok none := by
  have hf : s.table.filter (fun x => x.id == id) = [] := by
    rw [List.filter_eq_nil_iff]
    intro a ha
    simp [hm a ha]
  simp only [getLocationById, execQuery, parseQuery_byId id hq, execStmt, hf]

theorem searchLocationHistory_eq (t : String) (n : Nat) (s : DBState)
    (hq : sq ∉ t.data) (hp : pc ∉ t.data) (hu : uc ∉ t.data) (h : 0 < n) :
    searchLocationHistory t (.num (n : ℚ)) s =
      .ok (((sortDesc (s.table.filter
        (fun r => ciContainsB t r.description))).take n).map toSummary) := by
  have hne : ¬((n : ℚ) = 0) := by
    exact_mod_cast Nat.pos_iff_ne_zero.mp h
  have hjs : jsOr (.num (n : ℚ)) 20 = (n : ℚ) := by
    show (if (n : ℚ) = 0 then 20 else (n : ℚ)) = (n : ℚ)
    rw [if_neg hne]
  have hlp : lowC pc = pc := rfl
  have hpat : lowL (String.mk (pc :: (t.data ++ [pc]))).data
      = pc :: (lowL t.data ++ [pc]) := by
    show lowL (pc :: (t.data ++ [pc])) = pc :: (lowL t.data ++ [pc])
    simp [lowL, List.map_append, hlp]
  have hfil : s.table.filter (fun x =>
        likeM (lowL (String.mk (pc :: (t.data ++ [pc]))).data)
          (lowL x.description.data))
      = s.table.filter (fun r => ciContainsB t r.description) := by
    apply List.filter_congr
    intro x _
    rw [hpat, likeM_infix (lowL t.data) (lowL x.description.data)
      (lowL_noWild t.data hp hu)]
    rfl
  simp only [searchLocationHistory, hjs, execQuery, parseQuery_search t n hq h,
    execStmt, hfil]

theorem deleteLocationHistory_props (id : String) (w : World) (s : DBState)
    (hq : sq ∉ id.data) :
    (deleteLocationHistory id w s).2.2 = none ∧
    (deleteLocationHistory id w s).1.table = s.table.filter (fun x => x.id != id) ∧
    (w.useOPFS = false → w.idbOk = true →
      (deleteLocationHistory id w s).1.backup =
        s.backup.filter (fun x => x.id != id)) ∧
    (w.useOPFS = true → w.checkpointOk = false →
      (deleteLocationHistory id w s).2.1 = [WarnEvt.checkpointFailed]) := by
  have hexec : execQuery (buildDeleteQuery id) s.table =
      .ok (s.table.filter (fun x => x.id != id), []) := by
    simp only [execQuery, parseQuery_del id hq, execStmt]
  rcases w with ⟨u, cok, iok⟩
  cases u <;> cases cok <;> cases iok <;>
    simp [deleteLocationHistory, hexec, saveToOPFS, deleteFromIndexedDBBackup,
      getAllFromIndexedDBBackup, saveAllToIndexedDBBackup]

theorem clearAllHistory_props (w : World) (s : DBState) :
    (clearAllHistory w s).1.table = [] ∧
    (w.useOPFS = true → (clearAllHistory w s).2.2 = none) ∧
    (w.useOPFS = false → w.idbOk = true → (clearAllHistory w s).2.2 = none) ∧
    (w.useOPFS = false → w.idbOk = false →
      (clearAllHistory w s).2.2 = some .backupSync) := by
  have hexec : execQuery clearQuery s.table = .ok ([], []) := by
    simp only [execQuery, parseQuery_clear, execStmt]
  rcases w with ⟨u, cok, iok⟩
  cases u <;> cases cok <;> cases iok <;>
    simp [clearAllHistory, hexec, saveToOPFS, saveAllToIndexedDBBackup]

/-! ## Initialisation-protocol lemmas -/

theorem initStep_inv (s : InitState) (e : InitEvent) (he : e ≠ .finish false)
    (hi : initInv s) : initInv (initStep s e).1 := by
  cases e with
  | call =>
    by_cases h : s.isInitialized
    · simpa [initStep, h] using hi
    · rcases hp : s.initPromise with _ | p
      · rcases hi with ⟨h0, _⟩ | ⟨_, hS⟩
        · right
          simp [initStep, h, hp, h0]
        · exact absurd hp hS
      · simpa [initStep, h, hp] using hi
  | finish b =>
    cases b
    · exact absurd rfl he
    · rcases hi with ⟨h0, hN⟩ | ⟨h1, hS⟩
      · left
        exact ⟨h0, hN⟩
      · right
        exact ⟨h1, hS⟩

theorem runInit_aux (tr : List InitEvent) : ∀ s, initInv s →
    (∀ e ∈ tr, e ≠ .finish false) →
    initInv (tr.foldl (fun s e => (initStep s e).1) s) := by
  induction tr with
  | nil =>
    intro s hi _
    exact hi
  | cons e es ih =>
    intro s hi he
    simp only [List.foldl_cons]
    exact ih _ (initStep_inv s e (he e (by simp)) hi)
      (fun x hx => he x (by simp [hx]))

theorem initStep_share (s : InitState) (p : Nat) (h : s.isInitialized = false)
    (hp : s.initPromise = some p) : initStep s .call = (s, some p) := by
  simp [initStep, h, hp]

/-! ## Replay lemmas -/

theorem replayRecords_log (recs : List LocationHistoryRecord) :
    ∀ t, ((replayRecords t recs).2).map Prod.fst = recs.map (fun r => r.id) := by
  induction recs with
  | nil =>
    intro t
    rfl
  | cons r rest ih =>
    intro t
    simp only [replayRecords, List.map_cons, ih]

theorem replayStep_error (t : List LocationRow) (r : LocationHistoryRecord)
    (e : QueryFault) (hx : execQuery (buildReplayQuery r) t = .error e) :
    replayStep t r = (t, false) := by
  unfold replayStep
  rw [hx]

theorem replayRecords_skip (t : List LocationRow) (r : LocationHistoryRecord)
    (rest : List LocationHistoryRecord) (e : QueryFault)
    (hx : execQuery (buildReplayQuery r) t = .error e) :
    replayRecords t (r :: rest) =
      ((replayRecords t rest).1, (r.id, false) :: (replayRecords t rest).2) := by
  simp only [replayRecords, replayStep_error t r e hx]

theorem loadFromIndexedDBBackup_log (w : World) (s : DBState)
    (hw : w.idbOk = true) :
    ((loadFromIndexedDBBackup w s).2).map Prod.fst =
      s.backup.map (fun r => r.id) := by
  simp [loadFromIndexedDBBackup, getAllFromIndexedDBBackup, hw, replayRecords_log]

/-! ## Confidence-coalescing lemma -/

theorem buildSaveQuery_confZero (r : LocationHistoryRecord)
    (h : r.confidence_score = some 0) :
    buildSaveQuery r = buildSaveQuery { r with confidence_score := none } := by
  simp [buildSaveQuery, confFrag, h]

theorem saveLocationHistory_recA_fails (w : World) (s : DBState) :
    (saveLocationHistory recA w s).2.2 = some (.engine .malformed) := by
  have hs : parseQuery (buildSaveQuery recA).data = none := by decide
  have hx : execQuery (buildSaveQuery recA) s.table = .error .malformed := by
    simp only [execQuery, hs]
  unfold saveLocationHistory
  rw [hx]

/-! ## The claims -/

/-- C1: the claim asserts that every record-content value interpolated into
a query is escaped and that save/getById round-trips any description
exactly.  The code violates both: the INSERT built by `saveLocationHistory`
is missing the closing quote after the escaped `id`, `description`,
`weather_data` and `nearby_places` values, so every save — quotes in the
description or not — fails with a malformed query and the round-trip
returns no record at all; and `getLocationById` interpolates its id with no
escaping step, so an id containing a quote derails the SELECT (while a
quote-free id parses fine, isolating the quote as the culprit). -/
theorem C1_escaping_code_bug :
    (saveLocationHistory recQ wVol emptySt).2.2 = some (.engine .malformed) ∧
    getLocationById recQ.id (saveLocationHistory recQ wVol emptySt).1 = .ok none ∧
    (saveLocationHistory recA wVol emptySt).2.2 = some (.engine .malformed) ∧
    getLocationById "x'" emptySt = .error .malformed ∧
    parseQuery (buildByIdQuery "xy").data = some (.selectById "xy") := by
  refine ⟨?_, ?_, ?_, ?_, ?_⟩ <;> decide

/-- C2 counterexample: after a failed initialisation attempt the stored
pending promise is cleared, so a repeated `initialize()` call in the same
session spawns a second engine instantiation — the trace
call, finish-with-failure, call reaches two instantiations, refuting
"at most one engine instantiation ever occurs per session". -/
theorem C2_counterexample :
    ¬((runInit [.call, .finish false, .call]).instantiations ≤ 1) := by decide

/-- C2 (amended): along every trace with no failed attempt, at most one
engine instantiation occurs, and any `initialize()` call made while the
store is not ready but an attempt is outstanding joins exactly that
attempt's stored promise without touching the state; after a failed
attempt, however, the promise is cleared and a repeated call starts a
fresh attempt with a new engine instantiation. -/
theorem C2_single_flight (tr : List InitEvent)
    (h : ∀ e ∈ tr, e ≠ .finish false) :
    (runInit tr).instantiations ≤ 1 ∧
    (∀ s p, s.isInitialized = false → s.initPromise = some p →
      initStep s .call = (s, some p)) := by
  constructor
  · have hinv := runInit_aux tr initState0 (Or.inl ⟨rfl, rfl⟩) h
    rcases hinv with ⟨h0, _⟩ | ⟨h1, _⟩
    · have he : (runInit tr).instantiations = 0 := h0
      omega
    · have he : (runInit tr).instantiations = 1 := h1
      omega
  · exact fun s p h1 h2 => initStep_share s p h1 h2

/-- C2 witness: a concrete failure-free trace with a concurrent and a
repeated call instantiates the engine at most once. -/
theorem C2_witness :
    (runInit [.call, .call, .finish true, .call]).instantiations ≤ 1 :=
  (C2_single_flight [.call, .call, .finish true, .call] (by decide)).1

/-- C3 counterexample: under the volatile strategy with a failing IndexedDB
area, `clearAllHistory`'s durability step (the bare snapshot rewrite) fails
and the failure is rethrown — the mutation does *not* return success to its
caller, refuting the claim for this mutation. -/
theorem C3_counterexample :
    (clearAllHistory wVolBad stAB).2.2 = some .backupSync ∧
    ¬((clearAllHistory wVolBad stAB).2.2 = none) := by
  refine ⟨?_, ?_⟩ <;> decide

/-- C3 (amended): durability-step failure is swallowed (warning only, no
rollback) for `deleteLocationHistory` under both strategies and for
`clearAllHistory` under the durable-file strategy; but `clearAllHistory`
under the volatile strategy calls `saveAllToIndexedDBBackup` bare, so its
failure is rethrown to the caller (the already-applied engine DELETE is
still not rolled back); and `saveLocationHistory` never reaches its
durability step because its malformed INSERT fails first. -/
theorem C3_durability_soft_failure (id : String) (w : World) (s : DBState)
    (hq : sq ∉ id.data) :
    ((deleteLocationHistory id w s).2.2 = none ∧
      (deleteLocationHistory id w s).1.table =
        s.table.filter (fun x => x.id != id)) ∧
    (w.useOPFS = true → w.checkpointOk = false →
      (deleteLocationHistory id w s).2.1 = [WarnEvt.checkpointFailed]) ∧
    (w.useOPFS = true → (clearAllHistory w s).2.2 = none) ∧
    (clearAllHistory w s).1.table = [] ∧
    (w.useOPFS = false → w.idbOk = false →
      (clearAllHistory w s).2.2 = some .backupSync) ∧
    (saveLocationHistory recA w s).2.2 = some (.engine .malformed) := by
  obtain ⟨d1, d2, _, d4⟩ := deleteLocationHistory_props id w s hq
  obtain ⟨c1, c2, _, c4⟩ := clearAllHistory_props w s
  exact ⟨⟨d1, d2⟩, d4, c2, c1, c4, saveLocationHistory_recA_fails w s⟩

/-- C3 witness: concrete instance (volatile strategy, broken IndexedDB). -/
theorem C3_witness :
    ((deleteLocationHistory "loc-a" wVolBad stAB).2.2 = none ∧
      (deleteLocationHistory "loc-a" wVolBad stAB).1.table =
        stAB.table.filter (fun x => x.id != "loc-a")) ∧
    (wVolBad.useOPFS = true → wVolBad.checkpointOk = false →
      (deleteLocationHistory "loc-a" wVolBad stAB).2.1 =
        [WarnEvt.checkpointFailed]) ∧
    (wVolBad.useOPFS = true → (clearAllHistory wVolBad stAB).2.2 = none) ∧
    (clearAllHistory wVolBad stAB).1.table = [] ∧
    (wVolBad.useOPFS = false → wVolBad.idbOk = false →
      (clearAllHistory wVolBad stAB).2.2 = some .backupSync) ∧
    (saveLocationHistory recA wVolBad stAB).2.2 =
      some (.engine .malformed) :=
  C3_durability_soft_failure "loc-a" wVolBad stAB (by decide)

/-- C4 counterexample: with two valid records A and B (distinct ids,
t(A) < t(B)), running `saveLocationHistory(A)` then `saveLocationHistory(B)`
and then `getLocationHistory(10)` yields the empty list, not `[B, A]` —
both saves fail on the malformed INSERT, so nothing is ever stored. -/
theorem C4_counterexample :
    getLocationHistory (.num 10)
        ((saveLocationHistory recB wVol
          (saveLocationHistory recA wVol emptySt).1).1) = .ok [] ∧
    ([] : List LocationSummary) ≠ [toSummary rowB, toSummary rowA] := by
  refine ⟨?_, ?_⟩ <;> decide

/-- C4 (amended): `getLocationHistory(limit)` returns the summary
projection (no `image_data` field) of the timestamp-descending sort of the
stored rows, truncated to `limit` entries — in particular for a store
holding exactly rows a and b with t(a) < t(b) it returns `[b, a]`; but the
claim's save-save-list scenario is unrealisable because
`saveLocationHistory` always fails on its malformed INSERT. -/
theorem C4_list_ordering (n : Nat) (h : 0 < n) (s : DBState)
    (a b : LocationRow) (hab : tsLtB a.timestamp b.timestamp = true) :
    getLocationHistory (.num (n : ℚ)) s =
      .ok (((sortDesc s.table).take n).map toSummary) ∧
    chainDescB (sortDesc s.table) = true ∧
    List.Perm (sortDesc s.table) s.table ∧
    (((sortDesc s.table).take n).map toSummary).length ≤ n ∧
    getLocationHistory (.num 10) { table := [a, b], backup := [] } =
      .ok [toSummary b, toSummary a] := by
  refine ⟨getLocationHistory_eq n h s, sortDesc_chain s.table,
    sortDesc_perm s.table, ?_, ?_⟩
  · rw [List.length_map]
    exact List.length_take_le n (sortDesc s.table)
  · have h10 := getLocationHistory_eq 10 (by norm_num)
      { table := [a, b], backup := [] }
    rw [show (((10 : Nat) : ℚ)) = (10 : ℚ) by norm_num] at h10
    rw [h10, show sortDesc [a, b] = [b, a] from sortDesc_pair a b hab]
    rfl

/-- C4 witness: concrete instance at limit 10 with rows A and B. -/
theorem C4_witness :
    getLocationHistory (.num ((10 : Nat) : ℚ)) stAB =
      .ok (((sortDesc stAB.table).take 10).map toSummary) ∧
    chainDescB (sortDesc stAB.table) = true ∧
    List.Perm (sortDesc stAB.table) stAB.table ∧
    (((sortDesc stAB.table).take 10).map toSummary).length ≤ 10 ∧
    getLocationHistory (.num 10) { table := [rowA, rowB], backup := [] } =
      .ok [toSummary rowB, toSummary rowA] :=
  C4_list_ordering 10 (by decide) stAB rowA rowB (by decide)

/-- C5 counterexample: the search term is spliced raw into the ILIKE
pattern, so LIKE wildcards in the term are live: searching for `"_"` on a
store whose only description is `"abc"` returns that record although
`"abc"` does not contain `"_"` — the result is not "exactly the stored
records whose description contains the term". -/
theorem C5_counterexample :
    searchLocationHistory "_" (.num 20) stP = .ok [toSummary rowP] ∧
    ciContainsB "_" rowP.description = false := by
  refine ⟨?_, ?_⟩ <;> decide

/-- C5 (amended): for search terms free of quote characters and of the LIKE
wildcards `%` and `_`, `searchLocationHistory(term, limit)` returns exactly
the stored records whose description contains the term case-insensitively,
ordered by timestamp descending and truncated to `limit`; the Tokyo-Station
instances hold.  Terms containing wildcards match LIKE-pattern-wise instead
(see the counterexample), and terms containing quotes derail the query. -/
theorem C5_search_semantics (t : String) (n : Nat) (s : DBState)
    (hq : sq ∉ t.data) (hp : pc ∉ t.data) (hu : uc ∉ t.data) (h : 0 < n) :
    searchLocationHistory t (.num (n : ℚ)) s =
      .ok (((sortDesc (s.table.filter
        (fun r => ciContainsB t r.description))).take n).map toSummary) ∧
    chainDescB (sortDesc (s.table.filter
      (fun r => ciContainsB t r.description))) = true ∧
    ciContainsB "station" "Tokyo Station, Japan" = true ∧
    ciContainsB "STATION" "Tokyo Station, Japan" = true ∧
    searchLocationHistory "station" (.num 20) stAB = .ok [toSummary rowA] ∧
    searchLocationHistory "STATION" (.num 20) stAB = .ok [toSummary rowA] :=
  ⟨searchLocationHistory_eq t n s hq hp hu h, sortDesc_chain _,
    by decide, by decide, by decide, by decide⟩

/-- C5 witness: concrete instance at term "station", limit 20. -/
theorem C5_witness :
    searchLocationHistory "station" (.num ((20 : Nat) : ℚ)) stAB =
      .ok (((sortDesc (stAB.table.filter
        (fun r => ciContainsB "station" r.description))).take 20).map toSummary) ∧
    chainDescB (sortDesc (stAB.table.filter
      (fun r => ciContainsB "station" r.description))) = true ∧
    ciContainsB "station" "Tokyo Station, Japan" = true ∧
    ciContainsB "STATION" "Tokyo Station, Japan" = true ∧
    searchLocationHistory "station" (.num 20) stAB = .ok [toSummary rowA] ∧
    searchLocationHistory "STATION" (.num 20) stAB = .ok [toSummary rowA] :=
  C5_search_semantics "station" 20 stAB (by decide) (by decide) (by decide)
    (by decide)

/-- C6 counterexample: `getLocationById` interpolates the id without
escaping, so the unknown id `"x'"` produces an unterminated string literal
and the call throws a query error instead of returning null. -/
theorem C6_counterexample :
    getLocationById "x'" emptySt = .error .malformed := by decide

/-- C6 (amended): for every id free of quote characters and absent from the
store, `getLocationById` returns null (`.ok none`) and does not throw; an
id containing a quote makes the unescaped query malformed and the call
throws (see the counterexample). -/
theorem C6_getById_missing (id : String) (s : DBState)
    (hq : sq ∉ id.data) (hm : ∀ row ∈ s.table, row.id ≠ id) :
    getLocationById id s = .ok none :=
  getLocationById_missing id s hq hm

/-- C6 witness: a concrete unknown quote-free id on the empty store. -/
theorem C6_witness : getLocationById "nope" emptySt = .ok none :=
  C6_getById_missing "nope" emptySt (by decide)
    (by intro row hr; exact absurd hr (List.not_mem_nil row))

/-- C7 counterexample: deleting the absent id `"x'"` is not a no-op
success — the raw interpolation makes the DELETE malformed, the call
throws, and the durability step is never reached (no warnings, state
untouched). -/
theorem C7_counterexample :
    (deleteLocationHistory "x'" wVol emptySt).2.2 =
      some (.engine .malformed) ∧
    (deleteLocationHistory "x'" wVol emptySt).1 = emptySt ∧
    (deleteLocationHistory "x'" wVol emptySt).2.1 = [] := by
  refine ⟨?_, ?_, ?_⟩ <;> decide

/-- C7 (amended): for quote-free ids, `deleteLocationHistory` removes the
row with that id if present, is a no-op success on an absent id, and
triggers the strategy's durability step in both cases (observable as the
rewritten backup snapshot under the volatile strategy, and as the
checkpoint warning under the durable-file strategy when the checkpoint
fails); an id containing a quote makes the query malformed and the call
throws before any durability step. -/
theorem C7_delete_semantics (id : String) (w : World) (s : DBState)
    (hq : sq ∉ id.data) :
    (deleteLocationHistory id w s).2.2 = none ∧
    (deleteLocationHistory id w s).1.table =
      s.table.filter (fun x => x.id != id) ∧
    ((∀ row ∈ s.table, row.id ≠ id) →
      (deleteLocationHistory id w s).1.table = s.table) ∧
    (w.useOPFS = false → w.idbOk = true →
      (deleteLocationHistory id w s).1.backup =
        s.backup.filter (fun x => x.id != id)) ∧
    (w.useOPFS = true → w.checkpointOk = false →
      (deleteLocationHistory id w s).2.1 = [WarnEvt.checkpointFailed]) := by
  obtain ⟨d1, d2, d3, d4⟩ := deleteLocationHistory_props id w s hq
  refine ⟨d1, d2, ?_, d3, d4⟩
  intro hm
  rw [d2, List.filter_eq_self]
  intro a ha
  simp [hm a ha]

/-- C7 witness: concrete instance deleting "loc-a" from the two-row store
under the volatile strategy. -/
theorem C7_witness :
    (deleteLocationHistory "loc-a" wVol stAB).2.2 = none ∧
    (deleteLocationHistory "loc-a" wVol stAB).1.table =
      stAB.table.filter (fun x => x.id != "loc-a") ∧
    ((∀ row ∈ stAB.table, row.id ≠ "loc-a") →
      (deleteLocationHistory "loc-a" wVol stAB).1.table = stAB.table) ∧
    (wVol.useOPFS = false → wVol.idbOk = true →
      (deleteLocationHistory "loc-a" wVol stAB).1.backup =
        stAB.backup.filter (fun x => x.id != "loc-a")) ∧
    (wVol.useOPFS = true → wVol.checkpointOk = false →
      (deleteLocationHistory "loc-a" wVol stAB).2.1 =
        [WarnEvt.checkpointFailed]) :=
  C7_delete_semantics "loc-a" wVol stAB (by decide)

/-- C8: during backup replay every snapshot record is attempted in order,
whatever the outcome of the individual inserts (the attempt log lists
exactly the snapshot's ids), and a record whose insert fails is skipped
with the table unchanged while the remaining records are still replayed;
`loadFromIndexedDBBackup` is total — neither a failed insert nor a
snapshot-read failure aborts it or the initialisation. -/
theorem C8_replay_skips_failures (w : World) (s : DBState)
    (hw : w.idbOk = true) (t : List LocationRow) (r : LocationHistoryRecord)
    (rest : List LocationHistoryRecord) (e : QueryFault)
    (hx : execQuery (buildReplayQuery r) t = .error e) :
    ((loadFromIndexedDBBackup w s).2).map Prod.fst =
      s.backup.map (fun x => x.id) ∧
    replayRecords t (r :: rest) =
      ((replayRecords t rest).1, (r.id, false) :: (replayRecords t rest).2) :=
  ⟨loadFromIndexedDBBackup_log w s hw, replayRecords_skip t r rest e hx⟩

/-- C8 witness: concrete replay of a one-record snapshot whose insert
fails. -/
theorem C8_witness :
    ((loadFromIndexedDBBackup wVol { table := [], backup := [recA] }).2).map
        Prod.fst =
      ({ table := [], backup := [recA] } : DBState).backup.map (fun x => x.id) ∧
    replayRecords [] [recA] =
      ((replayRecords [] []).1, (recA.id, false) :: (replayRecords [] []).2) :=
  C8_replay_skips_failures wVol { table := [], backup := [recA] } (by decide)
    [] recA [] .malformed (by decide)

/-- C9 counterexample: for the record with confidence score exactly 0, the
claimed behaviour — a subsequent `getLocationById` returning a record with
no confidence score — does not occur: the save fails on the malformed
INSERT and `getLocationById` finds no record at all. -/
theorem C9_counterexample :
    (saveLocationHistory recZ wVol emptySt).2.2 = some (.engine .malformed) ∧
    getLocationById recZ.id (saveLocationHistory recZ wVol emptySt).1 =
      .ok none := by
  refine ⟨?_, ?_⟩ <;> decide

/-- C9 (amended): the INSERT text `saveLocationHistory` builds does
interpolate SQL NULL for a confidence score of exactly 0 — via the
falsy-coalescing `record.confidence_score || 'NULL'`, the built query is
character-for-character the one built for an absent confidence score — but
no row is ever written because the INSERT is malformed, so the subsequent
`getLocationById` returns no record rather than a record without a
confidence score. -/
theorem C9_confidence_coalescing (r : LocationHistoryRecord)
    (h : r.confidence_score = some 0) :
    buildSaveQuery r = buildSaveQuery { r with confidence_score := none } ∧
    confFrag (some 0) = "NULL" ∧
    confFrag none = "NULL" ∧
    (saveLocationHistory recZ wVol emptySt).2.2 = some (.engine .malformed) :=
  ⟨buildSaveQuery_confZero r h, by decide, by decide, by decide⟩

/-- C9 witness: the coalescing instance at the concrete record `recZ`. -/
theorem C9_witness :
    buildSaveQuery recZ =
      buildSaveQuery { recZ with confidence_score := none } ∧
    confFrag (some 0) = "NULL" ∧
    confFrag none = "NULL" ∧
    (saveLocationHistory recZ wVol emptySt).2.2 = some (.engine .malformed) :=
  C9_confidence_coalescing recZ (by decide)

/-- C10: a limit whose numeric coercion is 0 or NaN is falsy, so
`Number(limit) || default` substitutes the defaults — 50 for
`getLocationHistory` and 20 for `searchLocationHistory`; in particular
`getLocationHistory(0)` behaves exactly like `getLocationHistory(50)` and
returns the first 50 rows of the timestamp-descending sort (up to 50 rows,
not zero rows). -/
theorem C10_limit_defaults (lim : JsNum) (h : lim = .num 0 ∨ lim = .nan)
    (t : String) (s : DBState) :
    jsOr lim 50 = 50 ∧ jsOr lim 20 = 20 ∧
    getLocationHistory lim s = getLocationHistory (.num 50) s ∧
    searchLocationHistory t lim s = searchLocationHistory t (.num 20) s ∧
    getLocationHistory lim s =
      .ok (((sortDesc s.table).take 50).map toSummary) := by
  have h50 : jsOr lim 50 = 50 := by
    rcases h with rfl | rfl <;> decide
  have h20 : jsOr lim 20 = 20 := by
    rcases h with rfl | rfl <;> decide
  have h50b : jsOr (.num 50) 50 = 50 := by decide
  have h20b : jsOr (.num 20) 20 = 20 := by decide
  have he := getLocationHistory_eq 50 (by norm_num) s
  rw [show (((50 : Nat) : ℚ)) = (50 : ℚ) by norm_num] at he
  have h3 : getLocationHistory lim s = getLocationHistory (.num 50) s := by
    simp only [getLocationHistory, h50, h50b]
  refine ⟨h50, h20, h3, ?_, h3.trans he⟩
  simp only [searchLocationHistory, h20, h20b]

/-- C10 witness: limit 0 resolves to the defaults on the one-row store. -/
theorem C10_witness :
    jsOr (.num 0) 50 = 50 ∧ jsOr (.num 0) 20 = 20 ∧
    getLocationHistory (.num 0) stP = getLocationHistory (.num 50) stP ∧
    searchLocationHistory "abc" (.num 0) stP =
      searchLocationHistory "abc" (.num 20) stP ∧
    getLocationHistory (.num 0) stP =
      .ok (((sortDesc stP.table).take 50).map toSummary) :=
  C10_limit_defaults (.num 0) (Or.inl rfl) "abc" stP

end LocDB
